import Mathlib

/-!
Verification development for the mono6D excerpt: the Logger
(`LibOVRKernel/Src/Monterey/Kernel/OVR_Log.cpp`) and the Lock
(`OVR_Atomic.cpp`, Win32 section).

C strings are modelled as `List Char`; the C `char buffer[n]` holds the
string plus a terminating null, so a bounded helper with size argument `n`
stores at most `n - 1` characters.
-/

namespace OVR

/-- Modelled from the spec: the header `OVR_Log.h` is not under `src/`, so the
`LogMessageType` enumeration is modelled from the spec's data model: a closed
enumeration {Text, Debug, DebugText, Error, Assert}, each enumerator carrying a
bitmask category used for filtering.  Each enumerator is encoded as its own
category bit of the underlying unsigned carrier. -/
def Log_Text : Nat := 1

/-- Modelled from the spec: see `Log_Text`. -/
def Log_Error : Nat := 2

/-- Modelled from the spec: see `Log_Text`. -/
def Log_DebugText : Nat := 4

/-- Modelled from the spec: see `Log_Text`. -/
def Log_Debug : Nat := 8

/-- Modelled from the spec: see `Log_Text`. -/
def Log_Assert : Nat := 16

/-- Modelled from the spec: `IsDebugMessage` lives in the missing header
`OVR_Log.h`.  The spec classifies a message type as debug-only exactly when the
debug-suppression rule names it: `logDebug`/`logDebugText` produce no output in
a non-debug build, so `Log_Debug` and `Log_DebugText` are the debug-classified
types. -/
def IsDebugMessage (messageType : Nat) : Bool :=
  messageType = Log_Debug || messageType = Log_DebugText

/-- Modelled from the spec: `MaxLogBufferMessageSize` is declared in the missing
header `OVR_Log.h`; the spec only requires a fixed-capacity buffer, modelled
with the SDK's conventional capacity. -/
def MaxLogBufferMessageSize : Nat := 4096

/-- Argument of a printf-style format directive (external collaborator model). -/
inductive FmtArg where
  | int (i : Int)
  | str (s : List Char)
deriving DecidableEq

/-- Modelled from the spec: rendering of a printf format string with its
arguments (the `OVR_vsprintf` wrapper's underlying C `vsprintf` semantics is an
external collaborator).  Supports literal characters and the `%d` / `%s` / `%%`
directives; a directive without a matching argument is kept literally. -/
def renderFmt : List Char → List FmtArg → List Char
  | [], _ => []
  | '%' :: 'd' :: rest, FmtArg.int i :: args => (toString i).data ++ renderFmt rest args
  | '%' :: 's' :: rest, FmtArg.str s :: args => s ++ renderFmt rest args
  | '%' :: '%' :: rest, args => '%' :: renderFmt rest args
  | c :: rest, args => c :: renderFmt rest args

/-- Modelled from the spec: `OVR_strcpy` (header `OVR_Std.h` is not under
`src/`) is a length-bounded copy: it stores at most `size - 1` characters and
null-terminates within bounds. -/
def OVR_strcpy (size : Nat) (src : List Char) : List Char :=
  src.take (size - 1)

/-- Modelled from the spec: `OVR_strlen` returns the length of the stored
string. -/
def OVR_strlen (s : List Char) : Nat := s.length

/-- Modelled from the spec: `OVR_vsprintf` is a length-bounded `vsprintf`
wrapper: it renders the format string with its arguments, stores at most
`size - 1` characters and null-terminates within bounds. -/
def OVR_vsprintf (size : Nat) (fmt : List Char) (argList : List FmtArg) : List Char :=
  (renderFmt fmt argList).take (size - 1)

/-- Modelled from the spec: `OVR_strcat` is a length-bounded concatenation onto
a buffer of capacity `size`: it appends at most `size - 1 - dest.length`
characters and null-terminates within bounds. -/
def OVR_strcat (size : Nat) (dest src : List Char) : List Char :=
  dest ++ src.take (size - 1 - dest.length)

/-- Embeds `Log::FormatLog` (OVR_Log.cpp, lines 73-111): the switch on the
message type selects the severity label written by `OVR_strcpy` and whether a
trailing newline is added (`Log_Text`, `Log_DebugText` and the default case
write an empty buffer and suppress the newline), then `OVR_vsprintf` renders
the payload into the remaining capacity after the label, then `OVR_strcat`
appends the newline when requested. -/
def FormatLog (bufferSize : Nat) (messageType : Nat) (fmt : List Char)
    (argList : List FmtArg) : List Char :=
  let labelAndNl : List Char × Bool :=
    if messageType = Log_Error then (OVR_strcpy bufferSize "Error: ".data, true)
    else if messageType = Log_Debug then (OVR_strcpy bufferSize "Debug: ".data, true)
    else if messageType = Log_Assert then (OVR_strcpy bufferSize "Assert: ".data, true)
    else if messageType = Log_Text then ([], false)
    else if messageType = Log_DebugText then ([], false)
    else ([], false)
  let buffer := labelAndNl.1
  let addNewline := labelAndNl.2
  let labelLength := OVR_strlen buffer
  let buffer := buffer ++ OVR_vsprintf (bufferSize - labelLength) fmt argList
  if addNewline then OVR_strcat bufferSize buffer "\n".data else buffer

/-- Embeds the `Log` sink's per-instance state: the mutable `LoggingMask`
bitmask of enabled categories (declared in `OVR_Log.h`, used by
`Log::LogMessageVarg`). -/
structure Log where
  LoggingMask : Nat
deriving DecidableEq

/-- Embeds `Log::LogMessageVarg` (OVR_Log.cpp, lines 53-64) as its emission
decision: `none` when the message is suppressed (mask check first, then, in a
non-debug build, the `IsDebugMessage` check), `some` of the formatted text when
it reaches `FormatLog` and `DefaultLogOutput`.  The compile-time
`OVR_BUILD_DEBUG` flag is the `debugBuild` parameter. -/
def LogMessageVarg (debugBuild : Bool) (log : Log) (messageType : Nat)
    (fmt : List Char) (argList : List FmtArg) : Option (List Char) :=
  if messageType &&& log.LoggingMask = 0 then none
  else if !debugBuild && IsDebugMessage messageType then none
  else some (FormatLog MaxLogBufferMessageSize messageType fmt argList)

/-- Log instances are named by identifiers; the global pointer
`OVR_GlobalLog` is either unset (`none`) or carries an instance identifier. -/
abbrev GlobalLogPtr := Option Nat

/-- Embeds `Log::~Log` (OVR_Log.cpp, lines 45-51): its effect on the global
pointer `OVR_GlobalLog`.  `this` is the identifier of the instance being
destroyed; the pointer is cleared exactly when it currently points at `this`. -/
def LogDestructor (this : Nat) (globalLog : GlobalLogPtr) : GlobalLogPtr :=
  if some this = globalLog then none else globalLog

/-- Embeds `Log::SetGlobalLog` (OVR_Log.cpp, lines 153-155): overwrites the
global pointer. -/
def SetGlobalLog (log : GlobalLogPtr) (_globalLog : GlobalLogPtr) : GlobalLogPtr :=
  log

/-- Embeds `Log::GetGlobalLog` (OVR_Log.cpp, lines 157-162): returns the global
pointer as it is; the auto-install of a default is commented out in the
source. -/
def GetGlobalLog (globalLog : GlobalLogPtr) : GlobalLogPtr :=
  globalLog

/-- Identifier of the function-local static `defaultLog` instance inside
`Log::GetDefaultLog`. -/
def defaultLogId : Nat := 0

/-- Embeds `Log::GetDefaultLog` (OVR_Log.cpp, lines 165-170): returns the
address of the function-local static `defaultLog`, the same instance on every
call, without touching `OVR_GlobalLog`. -/
def GetDefaultLog : Nat := defaultLogId

/-- Embeds the free function `LogFn` (OVR_Log.cpp, lines 181-185): forwards to
the global sink's `LogMessageVarg` when `OVR_GlobalLog` is non-null, otherwise
does nothing.  `logs` maps an instance identifier to that instance's state. -/
def LogFn (debugBuild : Bool) (logs : Nat → Log) (globalLog : GlobalLogPtr)
    (msgType : Nat) (fmt : List Char) (args : List FmtArg) : Option (List Char) :=
  match globalLog with
  | some i => LogMessageVarg debugBuild (logs i) msgType fmt args
  | none => none

/-- Embeds `LogText` (OVR_Log.cpp, lines 187-192). -/
def LogText (debugBuild : Bool) (logs : Nat → Log) (globalLog : GlobalLogPtr)
    (fmt : List Char) (args : List FmtArg) : Option (List Char) :=
  LogFn debugBuild logs globalLog Log_Text fmt args

/-- Embeds `LogError` (OVR_Log.cpp, lines 194-199). -/
def LogError (debugBuild : Bool) (logs : Nat → Log) (globalLog : GlobalLogPtr)
    (fmt : List Char) (args : List FmtArg) : Option (List Char) :=
  LogFn debugBuild logs globalLog Log_Error fmt args

/-- Embeds `LogDebug` (OVR_Log.cpp, lines 201-206). -/
def LogDebug (debugBuild : Bool) (logs : Nat → Log) (globalLog : GlobalLogPtr)
    (fmt : List Char) (args : List FmtArg) : Option (List Char) :=
  LogFn debugBuild logs globalLog Log_Debug fmt args

/-- Embeds `LogDebugText` (OVR_Log.cpp, lines 208-213). -/
def LogDebugText (debugBuild : Bool) (logs : Nat → Log) (globalLog : GlobalLogPtr)
    (fmt : List Char) (args : List FmtArg) : Option (List Char) :=
  LogFn debugBuild logs globalLog Log_DebugText fmt args

/-- Embeds `LogAssert` (OVR_Log.cpp, lines 215-220). -/
def LogAssert (debugBuild : Bool) (logs : Nat → Log) (globalLog : GlobalLogPtr)
    (fmt : List Char) (args : List FmtArg) : Option (List Char) :=
  LogFn debugBuild logs globalLog Log_Assert fmt args

/-- Operations of OVR_Log.cpp that can touch or read the global pointer
`OVR_GlobalLog`: `Log::SetGlobalLog`, `Log::GetGlobalLog`,
`Log::GetDefaultLog`, `Log::~Log`, and the free emitters (which only read it
through `LogFn`). -/
inductive LogOp where
  | setGlobal (log : GlobalLogPtr)
  | getGlobal
  | getDefault
  | destroy (this : Nat)
  | emit (msgType : Nat)
deriving DecidableEq

/-- The effect of each operation of OVR_Log.cpp on the global pointer, taken
from the source: only `Log::SetGlobalLog` and `Log::~Log` write
`OVR_GlobalLog`; every other operation leaves it untouched. -/
def logStep (globalLog : GlobalLogPtr) : LogOp → GlobalLogPtr
  | LogOp.setGlobal log => SetGlobalLog log globalLog
  | LogOp.getGlobal => globalLog
  | LogOp.getDefault => globalLog
  | LogOp.destroy this => LogDestructor this globalLog
  | LogOp.emit _ => globalLog

/-- Compile-time platform selection of `Log::DefaultLogOutput`
(`OVR_OS_WIN32` / `OVR_OS_ANDROID` / anything else). -/
inductive Platform where
  | win32
  | android
  | other
deriving DecidableEq

/-- Android log priorities from `android/log.h` (external collaborator):
`ANDROID_LOG_DEBUG`, `ANDROID_LOG_INFO`, `ANDROID_LOG_ERROR`. -/
def ANDROID_LOG_DEBUG : Nat := 3

/-- See `ANDROID_LOG_DEBUG`. -/
def ANDROID_LOG_INFO : Nat := 4

/-- See `ANDROID_LOG_DEBUG`. -/
def ANDROID_LOG_ERROR : Nat := 6

/-- Destination a formatted message is written to by `Log::DefaultLogOutput`,
carrying the text handed to the channel. -/
inductive OutputChannel where
  | toStdout (text : List Char)
  | toDebugger (text : List Char)
  | toAndroidLog (priority : Nat) (text : List Char)
deriving DecidableEq

/-- Embeds `Log::DefaultLogOutput` (OVR_Log.cpp, lines 113-150).  On Win32 the
static `hasConsole` probe (GetStdHandle/GetConsoleMode) is the environment
parameter `hasConsole`; the text goes to `OutputDebugStringA` when there is no
console or the message is debug-classified, else to `stdout`.  On Android the
switch maps `Log_DebugText`/`Log_Debug` to `ANDROID_LOG_DEBUG`,
`Log_Assert`/`Log_Error` to `ANDROID_LOG_ERROR`, and everything else to the
initial `ANDROID_LOG_INFO`.  Elsewhere the text goes to `stdout`. -/
def DefaultLogOutput (platform : Platform) (hasConsole : Bool)
    (messageType : Nat) (formattedText : List Char) : OutputChannel :=
  match platform with
  | Platform.win32 =>
      if !hasConsole || IsDebugMessage messageType then
        OutputChannel.toDebugger formattedText
      else
        OutputChannel.toStdout formattedText
  | Platform.android =>
      let logPriority : Nat :=
        if messageType = Log_DebugText || messageType = Log_Debug then
          ANDROID_LOG_DEBUG
        else if messageType = Log_Assert || messageType = Log_Error then
          ANDROID_LOG_ERROR
        else
          ANDROID_LOG_INFO
      OutputChannel.toAndroidLog logPriority formattedText
  | Platform.other => OutputChannel.toStdout formattedText

/-- Which initializer `Lock::Lock` (OVR_Atomic.cpp, Win32 section) ends up
invoking on the critical section, with the spin count it passes when the
initializer takes one: `InitializeCriticalSectionEx` (compile-time Win8 path),
the dynamically resolved `InitializeCriticalSectionAndSpinCount`, or the plain
`InitializeCriticalSection` fallback. -/
inductive LockInit where
  | sectionEx (spinCount : Nat)
  | spinCountFn (spinCount : Nat)
  | plain
deriving DecidableEq

/-- Embeds the function-local statics of `Lock::Lock` that cache the runtime
probe: `static bool initTried` and
`static Function_InitializeCriticalSectionAndSpinCount pInitFn` (`pInitFn` is
modelled as whether the resolved pointer is non-null). -/
structure ProbeState where
  initTried : Bool
  pInitFn : Bool
deriving DecidableEq

/-- Process start: both statics are zero-initialized. -/
def initialProbeState : ProbeState := ⟨false, false⟩

/-- Embeds `Lock::Lock` (OVR_Atomic.cpp, lines 47-75): initializer selection
and its effect on the cached probe state.  `win8AtCompileTime` models the
`NTDDI_WIN8` compile-time test; `resolveSucceeds` models whether
`GetProcAddress(kernel32, "InitializeCriticalSectionAndSpinCount")` returns a
non-null pointer at the moment the probe runs. -/
def lockConstruct (win8AtCompileTime : Bool) (resolveSucceeds : Bool)
    (spinCount : Nat) (st : ProbeState) : LockInit × ProbeState :=
  if win8AtCompileTime then
    (LockInit.sectionEx spinCount, st)
  else
    let st := if !st.initTried then ProbeState.mk true resolveSucceeds else st
    if st.pInitFn then (LockInit.spinCountFn spinCount, st)
    else (LockInit.plain, st)

/-- Program counter of one thread of the C8 test harness, each thread running
`rounds` iterations of: acquire the lock, read the shared counter, write the
incremented value back and release.  Modelled from the spec: the lock
acquire/release operations live in the header `OVR_Atomic.h`, which is not
under `src/`; the spec's glossary defines the exclusive lock as a primitive
allowing at most one thread to hold it at a time, with spin-then-block
blocking wait. -/
inductive TPC where
  | ready
  | locked
  | readV (v : Nat)
deriving DecidableEq

/-- State of one thread: remaining iterations and program counter. -/
structure TState where
  rounds : Nat
  pc : TPC
deriving DecidableEq

/-- Modelled from the spec: global state of `n` threads incrementing one shared
counter under one Lock instance; `owner` is the thread currently holding the
lock, if any. -/
structure LockSys (n : Nat) where
  counter : Nat
  owner : Option (Fin n)
  threads : Fin n → TState

/-- Modelled from the spec: interleaving small-step semantics.  A thread with
work left acquires the free lock (blocking wait: the step is only enabled when
no thread holds the lock), then reads the shared counter, then writes the
incremented value and releases.  The scheduler is free: any enabled thread may
step, so no FIFO fairness among waiters is built in. -/
inductive LockStep (n : Nat) : LockSys n → LockSys n → Prop where
  | acquire (s : LockSys n) (i : Fin n) :
      s.owner = none → (s.threads i).pc = TPC.ready → 0 < (s.threads i).rounds →
      LockStep n s
        { counter := s.counter, owner := some i,
          threads := Function.update s.threads i ⟨(s.threads i).rounds, TPC.locked⟩ }
  | read (s : LockSys n) (i : Fin n) :
      (s.threads i).pc = TPC.locked →
      LockStep n s
        { counter := s.counter, owner := s.owner,
          threads := Function.update s.threads i
            ⟨(s.threads i).rounds, TPC.readV s.counter⟩ }
  | writeRelease (s : LockSys n) (i : Fin n) (v : Nat) :
      (s.threads i).pc = TPC.readV v →
      LockStep n s
        { counter := v + 1, owner := none,
          threads := Function.update s.threads i
            ⟨(s.threads i).rounds - 1, TPC.ready⟩ }

/-- Initial state of the C8 harness: counter zero, lock free, every one of the
`n` threads about to run `m` iterations. -/
def lockSysInit (n m : Nat) : LockSys n :=
  { counter := 0, owner := none, threads := fun _ => ⟨m, TPC.ready⟩ }

/-- Reachability under the interleaving semantics. -/
def LockReachable (n : Nat) : LockSys n → LockSys n → Prop :=
  Relation.ReflTransGen (LockStep n)

/-- A state where no thread can take a step: the run is over. -/
def LockStuck (n : Nat) (s : LockSys n) : Prop :=
  ∀ s', ¬ LockStep n s s'

/-- Inductive invariant of the C8 harness: a thread inside its critical
section is the lock owner (and is the only such thread), the owner is inside
its critical section, a value read under the lock is still the current
counter, remaining work is bounded, a thread inside its critical section has
work left, and the counter plus all remaining work accounts for all `n * m`
increments. -/
def lockInv (n m : Nat) (s : LockSys n) : Prop :=
  (∀ i : Fin n, (s.threads i).pc ≠ TPC.ready → s.owner = some i)
  ∧ (∀ i : Fin n, s.owner = some i → (s.threads i).pc ≠ TPC.ready)
  ∧ (∀ (i : Fin n) (v : Nat), (s.threads i).pc = TPC.readV v → v = s.counter)
  ∧ (∀ i : Fin n, (s.threads i).rounds ≤ m)
  ∧ (∀ i : Fin n, (s.threads i).pc ≠ TPC.ready → 0 < (s.threads i).rounds)
  ∧ s.counter + (∑ i : Fin n, (s.threads i).rounds) = n * m

/-- C4: destroying a Log instance clears the global pointer exactly when the
pointer currently points at that instance; an unset pointer or a pointer to a
different instance is left unchanged, and reading the global sink after
destroying the active one returns unset. -/
theorem c4_log_destructor_clears_global_iff_self (d : Nat) (g : GlobalLogPtr) :
    (g = some d → LogDestructor d g = none)
    ∧ (g ≠ some d → LogDestructor d g = g)
    ∧ GetGlobalLog (LogDestructor d (some d)) = none := by
  refine ⟨fun h => ?_, fun h => ?_, ?_⟩
  · simp [LogDestructor, h]
  · have h2 : ¬(some d = g) := fun hc => h hc.symm
    simp [LogDestructor, h2]
  · simp [GetGlobalLog, LogDestructor]

theorem c4_witness :
    LogDestructor 3 (some 3) = none ∧ LogDestructor 3 (some 7) = some 7
      ∧ LogDestructor 3 none = none :=
  ⟨(c4_log_destructor_clears_global_iff_self 3 (some 3)).1 rfl,
   (c4_log_destructor_clears_global_iff_self 3 (some 7)).2.1 (by decide),
   (c4_log_destructor_clears_global_iff_self 3 none).2.1 (by decide)⟩

/-- C5: each of the five free emitters forwards its format string and
arguments to the global sink's `LogMessageVarg` with its fixed message type
when a sink is installed, and yields no output at all (with the pointer left
unread beyond the null test) when the global pointer is null. -/
theorem c5_free_emitters_forward_or_noop (debugBuild : Bool) (logs : Nat → Log)
    (fmt : List Char) (args : List FmtArg) :
    (LogText debugBuild logs none fmt args = none
      ∧ LogError debugBuild logs none fmt args = none
      ∧ LogDebug debugBuild logs none fmt args = none
      ∧ LogDebugText debugBuild logs none fmt args = none
      ∧ LogAssert debugBuild logs none fmt args = none)
    ∧ ∀ i : Nat,
      LogText debugBuild logs (some i) fmt args
          = LogMessageVarg debugBuild (logs i) Log_Text fmt args
      ∧ LogError debugBuild logs (some i) fmt args
          = LogMessageVarg debugBuild (logs i) Log_Error fmt args
      ∧ LogDebug debugBuild logs (some i) fmt args
          = LogMessageVarg debugBuild (logs i) Log_Debug fmt args
      ∧ LogDebugText debugBuild logs (some i) fmt args
          = LogMessageVarg debugBuild (logs i) Log_DebugText fmt args
      ∧ LogAssert debugBuild logs (some i) fmt args
          = LogMessageVarg debugBuild (logs i) Log_Assert fmt args := by
  exact ⟨⟨rfl, rfl, rfl, rfl, rfl⟩, fun i => ⟨rfl, rfl, rfl, rfl, rfl⟩⟩

/-- C6: the global pointer changes only through `SetGlobalLog` or destruction
of a Log instance; `GetGlobalLog` returns the pointer as-is (no default is
installed on read), `GetDefaultLog` returns the one static default instance
without touching the pointer, and emission only reads it. -/
theorem c6_global_pointer_transitions (g : GlobalLogPtr) (op : LogOp) :
    (logStep g op ≠ g →
      (∃ l, op = LogOp.setGlobal l) ∨ (∃ d, op = LogOp.destroy d))
    ∧ logStep g LogOp.getGlobal = g
    ∧ GetGlobalLog g = g
    ∧ logStep g LogOp.getDefault = g
    ∧ GetDefaultLog = defaultLogId
    ∧ (∀ t : Nat, logStep g (LogOp.emit t) = g) := by
  refine ⟨fun h => ?_, rfl, rfl, rfl, rfl, fun _ => rfl⟩
  cases op with
  | setGlobal l => exact Or.inl ⟨l, rfl⟩
  | getGlobal => exact absurd rfl h
  | getDefault => exact absurd rfl h
  | destroy d => exact Or.inr ⟨d, rfl⟩
  | emit t => exact absurd rfl h

theorem c6_witness :
    (∃ l, LogOp.setGlobal (some 2) = LogOp.setGlobal l)
      ∨ (∃ d, LogOp.setGlobal (some 2) = LogOp.destroy d) :=
  (c6_global_pointer_transitions none (LogOp.setGlobal (some 2))).1 (by decide)

/-- C7: Lock construction picks its initializer in priority order — the
compile-time Win8 path uses `InitializeCriticalSectionEx` directly; otherwise
the spin-count initializer is resolved dynamically exactly once per process
(the cached probe result, including a failed resolution, is reused by every
later construction, whose outcome no longer depends on the current resolver),
and a failed resolution silently selects the plain fallback initializer. -/
theorem c7_lock_initializer_selection (resolve resolve2 : Bool)
    (spin spin2 : Nat) (st : ProbeState) :
    (lockConstruct true resolve spin st = (LockInit.sectionEx spin, st))
    ∧ (st.initTried = false →
        lockConstruct false resolve spin st =
          ((if resolve then LockInit.spinCountFn spin else LockInit.plain),
            ProbeState.mk true resolve))
    ∧ (st.initTried = true →
        lockConstruct false resolve spin st =
          ((if st.pInitFn then LockInit.spinCountFn spin else LockInit.plain), st))
    ∧ (lockConstruct false resolve2 spin2 (lockConstruct false resolve spin st).2 =
        ((if (lockConstruct false resolve spin st).2.pInitFn then
            LockInit.spinCountFn spin2 else LockInit.plain),
          (lockConstruct false resolve spin st).2))
    ∧ (lockConstruct false false spin initialProbeState =
        (LockInit.plain, ProbeState.mk true false)) := by
  obtain ⟨tried, fn⟩ := st
  refine ⟨rfl, fun h => ?_, fun h => ?_, ?_, ?_⟩
  · subst h; cases resolve <;> rfl
  · subst h; cases fn <;> rfl
  · cases tried <;> cases fn <;> cases resolve <;> cases resolve2 <;> rfl
  · rfl

theorem c7_witness :
    lockConstruct false true 100 initialProbeState =
        ((if true then LockInit.spinCountFn 100 else LockInit.plain),
          ProbeState.mk true true)
      ∧ lockConstruct false false 5 (ProbeState.mk true true) =
        ((if true then LockInit.spinCountFn 5 else LockInit.plain),
          ProbeState.mk true true) :=
  ⟨(c7_lock_initializer_selection true false 100 0 initialProbeState).2.1 rfl,
   (c7_lock_initializer_selection false false 5 0 (ProbeState.mk true true)).2.2.1 rfl⟩

/-- C9: `DefaultLogOutput` routes by platform — on Win32 the text goes to
standard output exactly when a console is attached and the type is not
debug-classified, else to the debugger channel; on Android, Debug and
DebugText map to debug priority, Error and Assert to error priority and every
other type to info priority; on any other platform the text goes to standard
output. -/
theorem c9_default_log_output_routing (hasConsole : Bool) (t : Nat)
    (text : List Char) :
    (DefaultLogOutput Platform.win32 hasConsole t text = OutputChannel.toStdout text
      ↔ hasConsole = true ∧ IsDebugMessage t = false)
    ∧ (DefaultLogOutput Platform.win32 hasConsole t text = OutputChannel.toDebugger text
      ↔ hasConsole = false ∨ IsDebugMessage t = true)
    ∧ DefaultLogOutput Platform.android hasConsole Log_Debug text
        = OutputChannel.toAndroidLog ANDROID_LOG_DEBUG text
    ∧ DefaultLogOutput Platform.android hasConsole Log_DebugText text
        = OutputChannel.toAndroidLog ANDROID_LOG_DEBUG text
    ∧ DefaultLogOutput Platform.android hasConsole Log_Error text
        = OutputChannel.toAndroidLog ANDROID_LOG_ERROR text
    ∧ DefaultLogOutput Platform.android hasConsole Log_Assert text
        = OutputChannel.toAndroidLog ANDROID_LOG_ERROR text
    ∧ (∀ t2 : Nat, t2 ≠ Log_Debug → t2 ≠ Log_DebugText → t2 ≠ Log_Error →
        t2 ≠ Log_Assert →
        DefaultLogOutput Platform.android hasConsole t2 text
          = OutputChannel.toAndroidLog ANDROID_LOG_INFO text)
    ∧ DefaultLogOutput Platform.other hasConsole t text
        = OutputChannel.toStdout text := by
  refine ⟨?_, ?_, ?_, ?_, ?_, ?_, fun t2 h1 h2 h3 h4 => ?_, rfl⟩
  · cases hasConsole <;> cases hdm : IsDebugMessage t <;>
      simp [DefaultLogOutput, hdm]
  · cases hasConsole <;> cases hdm : IsDebugMessage t <;>
      simp [DefaultLogOutput, hdm]
  · simp [DefaultLogOutput]
  · simp [DefaultLogOutput]
  · simp [DefaultLogOutput, Log_Error, Log_DebugText, Log_Debug, Log_Assert]
  · simp [DefaultLogOutput, Log_Error, Log_DebugText, Log_Debug, Log_Assert]
  · simp [DefaultLogOutput, h1, h2, h3, h4]

theorem c9_witness :
    DefaultLogOutput Platform.android true Log_Text "a".data
      = OutputChannel.toAndroidLog ANDROID_LOG_INFO "a".data :=
  (c9_default_log_output_routing true Log_Text "a".data).2.2.2.2.2.2.1
    Log_Text (by decide) (by decide) (by decide) (by decide)

/-- C10: `FormatLog` is total over the whole carrier of the message-type
enumeration: any value outside the five named enumerators takes the default
switch branch, writing no prefix and no trailing newline, so the result is the
bounded rendered payload alone, exactly as for `Log_Text`. -/
theorem c10_formatLog_total_default_branch (t : Nat)
    (h : t ≠ Log_Text ∧ t ≠ Log_Debug ∧ t ≠ Log_DebugText ∧ t ≠ Log_Error
      ∧ t ≠ Log_Assert) (size : Nat) (fmt : List Char) (args : List FmtArg) :
    FormatLog size t fmt args = OVR_vsprintf size fmt args
    ∧ FormatLog size t fmt args = FormatLog size Log_Text fmt args := by
  obtain ⟨h1, h2, h3, h4, h5⟩ := h
  simp only [Log_Text, Log_Error, Log_Debug, Log_DebugText, Log_Assert]
    at h1 h2 h3 h4 h5
  constructor
  · simp [FormatLog, Log_Text, Log_Error, Log_Debug, Log_DebugText, Log_Assert,
      h1, h2, h3, h4, h5, OVR_strlen]
  · simp [FormatLog, Log_Text, Log_Error, Log_Debug, Log_DebugText, Log_Assert,
      h1, h2, h3, h4, h5]

theorem varg_isSome_eq (debugBuild : Bool) (mask k t : Nat) (ht : t = 2 ^ k)
    (fmt : List Char) (args : List FmtArg) :
    (LogMessageVarg debugBuild ⟨mask⟩ t fmt args).isSome
      = (mask.testBit k && (debugBuild || !IsDebugMessage t)) := by
  subst ht
  unfold LogMessageVarg
  rcases htb : mask.testBit k with _ | _
  · have hz : 2 ^ k &&& mask = 0 := by
      rw [Nat.two_pow_and, htb]; simp
    simp [hz, htb]
  · have hnz : 2 ^ k &&& mask ≠ 0 := by
      rw [Nat.two_pow_and, htb]
      simp
    cases debugBuild <;> rcases hdm : IsDebugMessage (2 ^ k) with _ | _ <;>
      simp [hnz, htb, hdm]

/-- C1: `LogMessageVarg` emits a formatted message exactly when the message
type's category bit is set in the sink's `LoggingMask` and, for the
debug-classified types `Log_Debug`/`Log_DebugText`, the build is a debug
build; with both checks passing the emitted text is the `FormatLog` result,
and in a non-debug build the debug-classified types produce no output
regardless of the mask. -/
theorem c1_logMessageVarg_filter_gate (debugBuild : Bool) (mask : Nat)
    (fmt : List Char) (args : List FmtArg) :
    ((LogMessageVarg debugBuild ⟨mask⟩ Log_Text fmt args).isSome = mask.testBit 0)
    ∧ ((LogMessageVarg debugBuild ⟨mask⟩ Log_Error fmt args).isSome = mask.testBit 1)
    ∧ ((LogMessageVarg debugBuild ⟨mask⟩ Log_DebugText fmt args).isSome
        = (mask.testBit 2 && debugBuild))
    ∧ ((LogMessageVarg debugBuild ⟨mask⟩ Log_Debug fmt args).isSome
        = (mask.testBit 3 && debugBuild))
    ∧ ((LogMessageVarg debugBuild ⟨mask⟩ Log_Assert fmt args).isSome = mask.testBit 4)
    ∧ (∀ t : Nat, (LogMessageVarg debugBuild ⟨mask⟩ t fmt args).isSome = true →
        LogMessageVarg debugBuild ⟨mask⟩ t fmt args
          = some (FormatLog MaxLogBufferMessageSize t fmt args)) := by
  have hText : IsDebugMessage Log_Text = false := by decide
  have hError : IsDebugMessage Log_Error = false := by decide
  have hDT : IsDebugMessage Log_DebugText = true := by decide
  have hD : IsDebugMessage Log_Debug = true := by decide
  have hA : IsDebugMessage Log_Assert = false := by decide
  refine ⟨?_, ?_, ?_, ?_, ?_, fun t h => ?_⟩
  · rw [varg_isSome_eq debugBuild mask 0 Log_Text (by decide) fmt args, hText]
    cases debugBuild <;> simp
  · rw [varg_isSome_eq debugBuild mask 1 Log_Error (by decide) fmt args, hError]
    cases debugBuild <;> simp
  · rw [varg_isSome_eq debugBuild mask 2 Log_DebugText (by decide) fmt args, hDT]
    cases debugBuild <;> simp
  · rw [varg_isSome_eq debugBuild mask 3 Log_Debug (by decide) fmt args, hD]
    cases debugBuild <;> simp
  · rw [varg_isSome_eq debugBuild mask 4 Log_Assert (by decide) fmt args, hA]
    cases debugBuild <;> simp
  · unfold LogMessageVarg at h ⊢
    by_cases h1 : t &&& mask = 0
    · simp [h1] at h
    · rcases h2 : (!debugBuild && IsDebugMessage t) with _ | _
      · simp [h1, h2]
      · simp [h1, h2] at h

theorem c1_witness :
    LogMessageVarg true ⟨31⟩ Log_Text "hi".data []
      = some (FormatLog MaxLogBufferMessageSize Log_Text "hi".data []) :=
  (c1_logMessageVarg_filter_gate true 31 "hi".data []).2.2.2.2.2 Log_Text (by decide)

theorem formatLog_newline_tail (bufferSize : Nat) (fmt : List Char)
    (args : List FmtArg) (label : List Char)
    (hl : label.length + (renderFmt fmt args).length + 2 ≤ bufferSize) :
    OVR_strcat bufferSize
        (label ++ OVR_vsprintf (bufferSize - OVR_strlen label) fmt args) "\n".data
      = label ++ renderFmt fmt args ++ "\n".data := by
  unfold OVR_strcat OVR_vsprintf OVR_strlen
  have h1 : (renderFmt fmt args).take (bufferSize - label.length - 1)
      = renderFmt fmt args :=
    List.take_of_length_le (by omega)
  rw [h1]
  have h2 : ("\n".data).take (bufferSize - 1 - (label ++ renderFmt fmt args).length)
      = "\n".data := by
    refine List.take_of_length_le ?_
    have hn : ("\n".data).length = 1 := rfl
    have hap : (label ++ renderFmt fmt args).length
        = label.length + (renderFmt fmt args).length := List.length_append _ _
    omega
  rw [h2, List.append_assoc]

/-- C2: for each of the five message types, `FormatLog` writes the severity
label ("Error: ", "Debug: ", "Assert: ", and none for Text/DebugText), then
the rendered payload, then a trailing newline for every type except Text and
DebugText, whenever the buffer is large enough to hold the whole message; and
concretely, formatting Error "x=%d" with 5 yields exactly "Error: x=5\n" and
formatting Text "hi" yields exactly "hi". -/
theorem c2_formatLog_label_payload_newline (fmt : List Char) (args : List FmtArg)
    (bufferSize : Nat) (h : (renderFmt fmt args).length + 10 ≤ bufferSize) :
    FormatLog bufferSize Log_Error fmt args
        = "Error: ".data ++ renderFmt fmt args ++ "\n".data
    ∧ FormatLog bufferSize Log_Debug fmt args
        = "Debug: ".data ++ renderFmt fmt args ++ "\n".data
    ∧ FormatLog bufferSize Log_Assert fmt args
        = "Assert: ".data ++ renderFmt fmt args ++ "\n".data
    ∧ FormatLog bufferSize Log_Text fmt args = renderFmt fmt args
    ∧ FormatLog bufferSize Log_DebugText fmt args = renderFmt fmt args
    ∧ FormatLog MaxLogBufferMessageSize Log_Error "x=%d".data [FmtArg.int 5]
        = "Error: x=5\n".data
    ∧ FormatLog MaxLogBufferMessageSize Log_Text "hi".data [] = "hi".data := by
  have hlenE : ("Error: ".data).length = 7 := rfl
  have hlenD : ("Debug: ".data).length = 7 := rfl
  have hlenA : ("Assert: ".data).length = 8 := rfl
  have hcpyE : OVR_strcpy bufferSize "Error: ".data = "Error: ".data := by
    unfold OVR_strcpy
    exact List.take_of_length_le (by rw [hlenE]; omega)
  have hcpyD : OVR_strcpy bufferSize "Debug: ".data = "Debug: ".data := by
    unfold OVR_strcpy
    exact List.take_of_length_le (by rw [hlenD]; omega)
  have hcpyA : OVR_strcpy bufferSize "Assert: ".data = "Assert: ".data := by
    unfold OVR_strcpy
    exact List.take_of_length_le (by rw [hlenA]; omega)
  refine ⟨?_, ?_, ?_, ?_, ?_, by decide, by decide⟩
  · have e : FormatLog bufferSize Log_Error fmt args
        = OVR_strcat bufferSize (OVR_strcpy bufferSize "Error: ".data
            ++ OVR_vsprintf
                (bufferSize - OVR_strlen (OVR_strcpy bufferSize "Error: ".data))
                fmt args) "\n".data := rfl
    rw [e, hcpyE]
    exact formatLog_newline_tail bufferSize fmt args "Error: ".data (by rw [hlenE]; omega)
  · have e : FormatLog bufferSize Log_Debug fmt args
        = OVR_strcat bufferSize (OVR_strcpy bufferSize "Debug: ".data
            ++ OVR_vsprintf
                (bufferSize - OVR_strlen (OVR_strcpy bufferSize "Debug: ".data))
                fmt args) "\n".data := rfl
    rw [e, hcpyD]
    exact formatLog_newline_tail bufferSize fmt args "Debug: ".data (by rw [hlenD]; omega)
  · have e : FormatLog bufferSize Log_Assert fmt args
        = OVR_strcat bufferSize (OVR_strcpy bufferSize "Assert: ".data
            ++ OVR_vsprintf
                (bufferSize - OVR_strlen (OVR_strcpy bufferSize "Assert: ".data))
                fmt args) "\n".data := rfl
    rw [e, hcpyA]
    exact formatLog_newline_tail bufferSize fmt args "Assert: ".data (by rw [hlenA]; omega)
  · have e : FormatLog bufferSize Log_Text fmt args
        = [] ++ OVR_vsprintf (bufferSize - OVR_strlen []) fmt args := rfl
    rw [e]
    unfold OVR_vsprintf OVR_strlen
    simp only [List.nil_append, List.length_nil, Nat.sub_zero]
    exact List.take_of_length_le (by omega)
  · have e : FormatLog bufferSize Log_DebugText fmt args
        = [] ++ OVR_vsprintf (bufferSize - OVR_strlen []) fmt args := rfl
    rw [e]
    unfold OVR_vsprintf OVR_strlen
    simp only [List.nil_append, List.length_nil, Nat.sub_zero]
    exact List.take_of_length_le (by omega)

theorem c2_witness :
    FormatLog 4096 Log_Error "x=%d".data [FmtArg.int 5] = "Error: x=5\n".data
      ∧ FormatLog 4096 Log_Text "hi".data [] = "hi".data := by
  have h : (renderFmt "x=%d".data [FmtArg.int 5]).length + 10 ≤ 4096 := by decide
  have happ := c2_formatLog_label_payload_newline "x=%d".data [FmtArg.int 5] 4096 h
  exact ⟨by simpa [MaxLogBufferMessageSize] using happ.2.2.2.2.2.1,
    by simpa [MaxLogBufferMessageSize] using happ.2.2.2.2.2.2⟩

theorem take_len_le (n : Nat) (l : List Char) : (l.take n).length ≤ n := by
  rw [List.length_take]; omega

theorem formatLog_default (size t : Nat) (fmt : List Char) (args : List FmtArg)
    (h1 : t ≠ Log_Text) (h2 : t ≠ Log_Debug) (h3 : t ≠ Log_DebugText)
    (h4 : t ≠ Log_Error) (h5 : t ≠ Log_Assert) :
    FormatLog size t fmt args = OVR_vsprintf size fmt args := by
  simp only [Log_Text, Log_Error, Log_Debug, Log_DebugText, Log_Assert]
    at h1 h2 h3 h4 h5
  simp [FormatLog, Log_Text, Log_Error, Log_Debug, Log_DebugText, Log_Assert,
    h1, h2, h3, h4, h5, OVR_strlen]

theorem strcat_len_lt (size : Nat) (d s : List Char) (hd : d.length ≤ size - 1)
    (hs : 1 ≤ size) : (OVR_strcat size d s).length < size := by
  unfold OVR_strcat
  rw [List.length_append]
  have := take_len_le (size - 1 - d.length) s
  omega

/-- C3: every `FormatLog` write is bounded by the buffer capacity: for any
capacity that can hold at least the terminating null, any message type, format
string and arguments, the stored text is strictly shorter than the capacity
(so text plus null terminator fit within the buffer and an over-long payload
is truncated), given that the bounded `OVR_strcpy`/`OVR_vsprintf`/`OVR_strcat`
helpers honor their size arguments as modelled. -/
theorem c3_formatLog_never_overruns (bufferSize t : Nat) (fmt : List Char)
    (args : List FmtArg) (h : 1 ≤ bufferSize) :
    (FormatLog bufferSize t fmt args).length < bufferSize := by
  have hv : ∀ size2 : Nat, (OVR_vsprintf size2 fmt args).length ≤ size2 - 1 := by
    intro size2
    unfold OVR_vsprintf
    exact take_len_le _ _
  have key : ∀ label : List Char, label.length ≤ bufferSize - 1 →
      (OVR_strcat bufferSize
        (label ++ OVR_vsprintf (bufferSize - OVR_strlen label) fmt args)
        "\n".data).length < bufferSize := by
    intro label hlab
    refine strcat_len_lt bufferSize _ _ ?_ h
    rw [List.length_append]
    have h1 := hv (bufferSize - OVR_strlen label)
    have hsl : OVR_strlen label = label.length := rfl
    omega
  by_cases h1 : t = Log_Error
  · subst h1
    exact key (OVR_strcpy bufferSize "Error: ".data) (take_len_le _ _)
  by_cases h2 : t = Log_Debug
  · subst h2
    exact key (OVR_strcpy bufferSize "Debug: ".data) (take_len_le _ _)
  by_cases h3 : t = Log_Assert
  · subst h3
    exact key (OVR_strcpy bufferSize "Assert: ".data) (take_len_le _ _)
  by_cases h4 : t = Log_Text
  · subst h4
    have e : FormatLog bufferSize Log_Text fmt args
        = OVR_vsprintf bufferSize fmt args := rfl
    rw [e]
    have := hv bufferSize
    omega
  by_cases h5 : t = Log_DebugText
  · subst h5
    have e : FormatLog bufferSize Log_DebugText fmt args
        = OVR_vsprintf bufferSize fmt args := rfl
    rw [e]
    have := hv bufferSize
    omega
  · rw [formatLog_default bufferSize t fmt args h4 h2 h5 h1 h3]
    have := hv bufferSize
    omega

theorem c3_witness :
    1 ≤ 8 ∧ (FormatLog 8 Log_Error "x=%d".data [FmtArg.int 12345]).length < 8 :=
  ⟨by decide, c3_formatLog_never_overruns 8 Log_Error "x=%d".data
    [FmtArg.int 12345] (by decide)⟩

theorem c10_witness :
    FormatLog 4096 32 "x=%d".data [FmtArg.int 5] = OVR_vsprintf 4096 "x=%d".data [FmtArg.int 5]
      ∧ FormatLog 4096 32 "x=%d".data [FmtArg.int 5]
          = FormatLog 4096 Log_Text "x=%d".data [FmtArg.int 5] :=
  c10_formatLog_total_default_branch 32
    ⟨by decide, by decide, by decide, by decide, by decide⟩ 4096 "x=%d".data [FmtArg.int 5]

theorem sum_split (n : Nat) (i : Fin n) (f : Fin n → Nat) :
    ∑ j : Fin n, f j = f i + ∑ j in Finset.univ.erase i, f j :=
  (Finset.add_sum_erase Finset.univ f (Finset.mem_univ i)).symm

theorem sum_erase_update (n : Nat) (threads : Fin n → TState) (i : Fin n)
    (t2 : TState) :
    ∑ j in Finset.univ.erase i, ((Function.update threads i t2) j).rounds
      = ∑ j in Finset.univ.erase i, (threads j).rounds :=
  Finset.sum_congr rfl fun j hj => by
    rw [Function.update_noteq (Finset.ne_of_mem_erase hj)]

theorem sum_update_rounds (n : Nat) (threads : Fin n → TState) (i : Fin n)
    (t2 : TState) :
    ∑ j : Fin n, ((Function.update threads i t2) j).rounds
      = t2.rounds + ∑ j in Finset.univ.erase i, (threads j).rounds := by
  rw [sum_split n i fun j => ((Function.update threads i t2) j).rounds,
    Function.update_same, sum_erase_update]

theorem lockInv_init (n m : Nat) : lockInv n m (lockSysInit n m) := by
  refine ⟨fun i hi => absurd rfl hi, fun i hi => by simp [lockSysInit] at hi,
    fun i v hv => by simp [lockSysInit] at hv, fun i => le_refl m,
    fun i hi => absurd rfl hi, ?_⟩
  simp [lockSysInit, Finset.sum_const, Finset.card_univ, mul_comm]

theorem lockInv_step (n m : Nat) (s s2 : LockSys n) (hstep : LockStep n s s2)
    (hinv : lockInv n m s) : lockInv n m s2 := by
  obtain ⟨inv1, inv2, inv3, inv4, inv5, inv6⟩ := hinv
  cases hstep with
  | acquire i hown hpc hpos =>
    simp only [lockInv]
    refine ⟨?_, ?_, ?_, ?_, ?_, ?_⟩
    · intro j hj
      by_cases hji : j = i
      · rw [hji]
      · rw [Function.update_noteq hji] at hj
        rw [inv1 j hj] at hown
        simp at hown
    · intro j hj
      obtain rfl : i = j := Option.some.inj hj
      simp [Function.update_same]
    · intro j v hv
      by_cases hji : j = i
      · rw [hji, Function.update_same] at hv
        simp at hv
      · rw [Function.update_noteq hji] at hv
        exact inv3 j v hv
    · intro j
      by_cases hji : j = i
      · rw [hji, Function.update_same]
        exact inv4 i
      · rw [Function.update_noteq hji]
        exact inv4 j
    · intro j hj
      by_cases hji : j = i
      · rw [hji, Function.update_same]
        exact hpos
      · rw [Function.update_noteq hji] at hj ⊢
        exact inv5 j hj
    · rw [sum_update_rounds]
      show s.counter + ((s.threads i).rounds
        + ∑ j in Finset.univ.erase i, (s.threads j).rounds) = n * m
      rw [← sum_split n i fun j => (s.threads j).rounds]
      exact inv6
  | read i hpc =>
    simp only [lockInv]
    refine ⟨?_, ?_, ?_, ?_, ?_, ?_⟩
    · intro j hj
      by_cases hji : j = i
      · rw [hji]
        exact inv1 i (by rw [hpc]; simp)
      · rw [Function.update_noteq hji] at hj
        exact inv1 j hj
    · intro j hj
      by_cases hji : j = i
      · rw [hji, Function.update_same]
        simp
      · rw [Function.update_noteq hji]
        exact inv2 j hj
    · intro j v hv
      by_cases hji : j = i
      · rw [hji, Function.update_same] at hv
        simp at hv
        omega
      · rw [Function.update_noteq hji] at hv
        exact inv3 j v hv
    · intro j
      by_cases hji : j = i
      · rw [hji, Function.update_same]
        exact inv4 i
      · rw [Function.update_noteq hji]
        exact inv4 j
    · intro j hj
      by_cases hji : j = i
      · rw [hji, Function.update_same]
        exact inv5 i (by rw [hpc]; simp)
      · rw [Function.update_noteq hji] at hj ⊢
        exact inv5 j hj
    · rw [sum_update_rounds]
      show s.counter + ((s.threads i).rounds
        + ∑ j in Finset.univ.erase i, (s.threads j).rounds) = n * m
      rw [← sum_split n i fun j => (s.threads j).rounds]
      exact inv6
  | writeRelease i v hpc =>
    have hvc : v = s.counter := inv3 i v hpc
    have howni : s.owner = some i := inv1 i (by rw [hpc]; simp)
    have hposi : 0 < (s.threads i).rounds := inv5 i (by rw [hpc]; simp)
    simp only [lockInv]
    refine ⟨?_, ?_, ?_, ?_, ?_, ?_⟩
    · intro j hj
      by_cases hji : j = i
      · rw [hji, Function.update_same] at hj
        simp at hj
      · rw [Function.update_noteq hji] at hj
        have h2 := inv1 j hj
        rw [howni] at h2
        exact absurd (Option.some.inj h2) fun hh => hji hh.symm
    · intro j hj
      simp at hj
    · intro j w hw
      by_cases hji : j = i
      · rw [hji, Function.update_same] at hw
        simp at hw
      · rw [Function.update_noteq hji] at hw
        have h2 := inv1 j (by rw [hw]; simp)
        rw [howni] at h2
        exact absurd (Option.some.inj h2) fun hh => hji hh.symm
    · intro j
      by_cases hji : j = i
      · rw [hji, Function.update_same]
        show (s.threads i).rounds - 1 ≤ m
        have h4 := inv4 i
        omega
      · rw [Function.update_noteq hji]
        exact inv4 j
    · intro j hj
      by_cases hji : j = i
      · rw [hji, Function.update_same] at hj
        simp at hj
      · rw [Function.update_noteq hji] at hj ⊢
        exact inv5 j hj
    · rw [sum_update_rounds]
      show v + 1 + ((s.threads i).rounds - 1
        + ∑ j in Finset.univ.erase i, (s.threads j).rounds) = n * m
      have h6 := inv6
      rw [sum_split n i fun j => (s.threads j).rounds] at h6
      omega

theorem lockInv_reachable (n m : Nat) (s : LockSys n)
    (h : LockReachable n (lockSysInit n m) s) : lockInv n m s := by
  induction h with
  | refl => exact lockInv_init n m
  | tail _ hstep ih => exact lockInv_step n m _ _ hstep ih

/-- C8: in the interleaving model of the lock, critical sections are mutually
exclusive (two threads past their lock acquisition are the same thread), and
when `n` threads each performing `m` guarded increments of a shared counter
have all finished (no step is enabled any more), the counter is exactly
`n * m`. -/
theorem c8_lock_mutual_exclusion_counter (n m : Nat) (s : LockSys n)
    (hr : LockReachable n (lockSysInit n m) s) :
    (∀ i j : Fin n, (s.threads i).pc ≠ TPC.ready → (s.threads j).pc ≠ TPC.ready →
      i = j)
    ∧ (LockStuck n s → s.counter = n * m) := by
  obtain ⟨inv1, inv2, inv3, inv4, inv5, inv6⟩ := lockInv_reachable n m s hr
  constructor
  · intro i j hi hj
    have h1 := inv1 i hi
    have h2 := inv1 j hj
    rw [h1] at h2
    exact Option.some.inj h2
  · intro hstuck
    have hready : ∀ i : Fin n, (s.threads i).pc = TPC.ready := by
      intro i
      rcases hpc : (s.threads i).pc with _ | _ | v
      · rfl
      · exact absurd (LockStep.read s i hpc) (hstuck _)
      · exact absurd (LockStep.writeRelease s i v hpc) (hstuck _)
    have hown : s.owner = none := by
      rcases hq : s.owner with _ | i
      · rfl
      · exact absurd (hready i) (inv2 i hq)
    have hzero : ∀ i : Fin n, (s.threads i).rounds = 0 := by
      intro i
      by_contra hnz
      exact absurd (LockStep.acquire s i hown (hready i) (Nat.pos_of_ne_zero hnz))
        (hstuck _)
    have hsum : (∑ i : Fin n, (s.threads i).rounds) = 0 :=
      Finset.sum_eq_zero fun i _ => hzero i
    omega

theorem c8_witness : (lockSysInit 0 5).counter = 0 * 5 :=
  (c8_lock_mutual_exclusion_counter 0 5 (lockSysInit 0 5)
    Relation.ReflTransGen.refl).2 (fun s2 hstep => by
      cases hstep with
      | acquire i h1 h2 h3 => exact i.elim0
      | read i h1 => exact i.elim0
      | writeRelease i v h1 => exact i.elim0)

end OVR



